import Mathlib

/-!
Verification of the prescription-analysis service in `medical.py`.

The backend logic is embedded shallowly:

* `DRUG_DATABASE` and `ALTERNATIVES` are the module-level constant tables.
* Python dicts built by the service are modelled as association lists
  (`List (String × String)`) with Python's insertion semantics
  (`dictInsert`: updating an existing key keeps its position, a new key is
  appended) and lookup (`dictGet`).
* The Entity Extractor (the HuggingFace NER pipeline) is external: its output
  is modelled as a list of `Entity` records (`word`, `entity_group`), exactly
  the fields the service reads.
* `extract_drugs`, `check_interactions`, `recommend_dosage`,
  `suggest_alternatives` and `analyze_prescription` are translated
  line-by-line from the source; Python loops become structural recursion
  carrying the same accumulators.
* For the read-only-tables invariant a state-passing variant of every
  operation is given (`ServiceState`, the `...S` functions): each table read
  goes through the state, and the state is threaded through every loop, so
  that mutation would be expressible; the theorems show the state is
  returned unchanged and the results agree with the pure functions.
-/

namespace Medical

/-- One record of the drug table: `{"interacts_with": [...], "min_age": n, "dosage": s}`. -/
structure DrugRecord where
  interacts_with : List String
  min_age : Nat
  dosage : String
deriving DecidableEq, Repr

/-- The entities returned by the NER pipeline, restricted to the fields the
service reads (`ent['word']`, `ent['entity_group']`). -/
structure Entity where
  word : String
  entity_group : String
deriving DecidableEq, Repr

/-- The table `DRUG_DATABASE` from `medical.py`, lines 16-20. -/
def DRUG_DATABASE : List (String × DrugRecord) :=
  [("ibuprofen", ⟨["aspirin"], 12, "200mg"⟩),
   ("aspirin", ⟨["ibuprofen"], 16, "100mg"⟩),
   ("paracetamol", ⟨[], 1, "500mg"⟩)]

/-- The table `ALTERNATIVES` from `medical.py`, lines 23-26. -/
def ALTERNATIVES : List (String × String) :=
  [("ibuprofen", "paracetamol"),
   ("aspirin", "paracetamol")]

/-- Python `DRUG_DATABASE.get(drug)`. -/
def dbGet (drug : String) : Option DrugRecord :=
  (DRUG_DATABASE.find? (fun p => p.1 == drug)).map (·.2)

/-- Python `ALTERNATIVES.get(drug)` (without default). -/
def alternativesGet (drug : String) : Option String :=
  (ALTERNATIVES.find? (fun p => p.1 == drug)).map (·.2)

/-- Python `DRUG_DATABASE.get(drug, {}).get("interacts_with", [])`. -/
def interactsWith (drug : String) : List String :=
  match dbGet drug with
  | some info => info.interacts_with
  | none => []

/-- Lookup in a Python dict modelled as an association list. -/
def dictGet (m : List (String × String)) (k : String) : Option String :=
  (m.find? (fun p => p.1 == k)).map (·.2)

/-- The keys of a modelled Python dict, in insertion order. -/
def dictKeys (m : List (String × String)) : List String :=
  m.map (·.1)

/-- Python `d[k] = v`: an existing key keeps its position and gets the new
value, a fresh key is appended. -/
def dictInsert (m : List (String × String)) (k v : String) : List (String × String) :=
  if m.any (fun p => p.1 == k) then
    m.map (fun p => if p.1 == k then (k, v) else p)
  else
    m ++ [(k, v)]

/-- Python `str.lower()`: lowercase every character (ASCII case mapping on
each character, as `Char.toLower`). -/
def strLower (s : String) : String :=
  ⟨s.data.map Char.toLower⟩

/-- Function `extract_drugs` (lines 49-52): keep `MISC` entities, lowercase the word,
deduplicate (`list(set(drugs))`). -/
def extract_drugs (entities : List Entity) : List String :=
  ((entities.filter (fun e => e.entity_group == "MISC")).map
    (fun e => strLower e.word)).dedup

/-- The f-string `f"{drug} interacts with {other}"` (line 59). -/
def interactionLine (drug other : String) : String :=
  drug ++ " interacts with " ++ other

/-- The inner loop of `check_interactions` (lines 57-59), over `drugs[i+1:]`. -/
def check_interactions_inner (drug : String) : List String → List String
  | [] => []
  | other :: rest =>
    if other ∈ interactsWith drug then
      interactionLine drug other :: check_interactions_inner drug rest
    else
      check_interactions_inner drug rest

/-- Function `check_interactions` (lines 54-60): the outer loop over `enumerate(drugs)`,
each iteration appending its inner-loop findings. -/
def check_interactions : List String → List String
  | [] => []
  | drug :: rest => check_interactions_inner drug rest ++ check_interactions rest

/-- The body of the `if`/`else` on lines 67-70: the table dosage when
`age >= min_age`, otherwise the formatted restriction message. -/
def dosageValue (info : DrugRecord) (age : Int) : String :=
  if (info.min_age : Int) ≤ age then info.dosage
  else "Not recommended under age " ++ toString info.min_age

/-- The loop of `recommend_dosage` (lines 64-70) with its dict accumulator. -/
def recommend_dosage_loop (age : Int) (acc : List (String × String)) :
    List String → List (String × String)
  | [] => acc
  | drug :: rest =>
    match dbGet drug with
    | some info => recommend_dosage_loop age (dictInsert acc drug (dosageValue info age)) rest
    | none => recommend_dosage_loop age acc rest

/-- Function `recommend_dosage` (lines 62-71). -/
def recommend_dosage (drugs : List String) (age : Int) : List (String × String) :=
  recommend_dosage_loop age [] drugs

/-- The dict comprehension of `suggest_alternatives` (line 74), as the loop it
denotes: for each drug passing the `if drug in ALTERNATIVES` filter, insert
`ALTERNATIVES.get(drug, "No alternative found")`. -/
def suggest_alternatives_loop (acc : List (String × String)) :
    List String → List (String × String)
  | [] => acc
  | drug :: rest =>
    if (alternativesGet drug).isSome then
      suggest_alternatives_loop
        (dictInsert acc drug ((alternativesGet drug).getD "No alternative found")) rest
    else
      suggest_alternatives_loop acc rest

/-- Function `suggest_alternatives` (lines 73-74). -/
def suggest_alternatives (drugs : List String) : List (String × String) :=
  suggest_alternatives_loop [] drugs

/-- The response of `POST /analyze/` (lines 42-47). -/
structure AnalysisResult where
  extracted_drugs : List String
  interactions : List String
  dosage_info : List (String × String)
  alternatives : List (String × String)
deriving DecidableEq, Repr

/-- Function `analyze_prescription` (lines 35-47), with the Entity Extractor's output
for `data.text` supplied as `entities`. -/
def analyze_prescription (entities : List Entity) (age : Int) : AnalysisResult :=
  let extracted_drugs := extract_drugs entities
  { extracted_drugs := extracted_drugs
    interactions := check_interactions extracted_drugs
    dosage_info := recommend_dosage extracted_drugs age
    alternatives := suggest_alternatives extracted_drugs }

/-- The ordered pairs `(drugs[i], drugs[j])` with `i < j`, in the enumeration
order of the two nested loops of `check_interactions` (specification-side
description of the loop ranges, to be compared with the code's output). -/
def pairsList : List String → List (String × String)
  | [] => []
  | d :: rest => rest.map (fun o => (d, o)) ++ pairsList rest

/-! ### State-passing variants

To express (and refute the possibility of) mutation of the module-level
tables, every operation is also given in a state-passing form: the tables
live in a `ServiceState`, every table read goes through the current state,
and the state is threaded through every loop iteration and returned. -/

/-- The module-level mutable environment of `medical.py`: the two tables. -/
structure ServiceState where
  db : List (String × DrugRecord)
  alts : List (String × String)
deriving DecidableEq, Repr

/-- The state at startup: the literal tables of lines 16-26. -/
def initState : ServiceState :=
  { db := DRUG_DATABASE, alts := ALTERNATIVES }

/-- Read `DRUG_DATABASE.get(drug)` reading the table from the state. -/
def dbGetS (s : ServiceState) (drug : String) : Option DrugRecord :=
  (s.db.find? (fun p => p.1 == drug)).map (·.2)

/-- Read `ALTERNATIVES.get(drug)` reading the table from the state. -/
def alternativesGetS (s : ServiceState) (drug : String) : Option String :=
  (s.alts.find? (fun p => p.1 == drug)).map (·.2)

/-- Read `DRUG_DATABASE.get(drug, {}).get("interacts_with", [])` on the state. -/
def interactsWithS (s : ServiceState) (drug : String) : List String :=
  match dbGetS s drug with
  | some info => info.interacts_with
  | none => []

/-- State-passing `extract_drugs` (reads no table). -/
def extract_drugsS (s : ServiceState) (entities : List Entity) :
    List String × ServiceState :=
  (((entities.filter (fun e => e.entity_group == "MISC")).map
    (fun e => strLower e.word)).dedup, s)

/-- State-passing inner loop of `check_interactions`. -/
def check_interactions_innerS (drug : String) :
    ServiceState → List String → List String × ServiceState
  | s, [] => ([], s)
  | s, other :: rest =>
    if other ∈ interactsWithS s drug then
      let step := check_interactions_innerS drug s rest
      (interactionLine drug other :: step.1, step.2)
    else
      check_interactions_innerS drug s rest

/-- State-passing `check_interactions`: the state coming out of each inner
loop is fed into the next outer iteration. -/
def check_interactionsS : ServiceState → List String → List String × ServiceState
  | s, [] => ([], s)
  | s, drug :: rest =>
    let inner := check_interactions_innerS drug s rest
    let outer := check_interactionsS inner.2 rest
    (inner.1 ++ outer.1, outer.2)

/-- State-passing loop of `recommend_dosage`. -/
def recommend_dosage_loopS (age : Int) :
    ServiceState → List (String × String) → List String →
      List (String × String) × ServiceState
  | s, acc, [] => (acc, s)
  | s, acc, drug :: rest =>
    match dbGetS s drug with
    | some info =>
      recommend_dosage_loopS age s (dictInsert acc drug (dosageValue info age)) rest
    | none => recommend_dosage_loopS age s acc rest

/-- State-passing `recommend_dosage`. -/
def recommend_dosageS (s : ServiceState) (drugs : List String) (age : Int) :
    List (String × String) × ServiceState :=
  recommend_dosage_loopS age s [] drugs

/-- State-passing loop of `suggest_alternatives`. -/
def suggest_alternatives_loopS :
    ServiceState → List (String × String) → List String →
      List (String × String) × ServiceState
  | s, acc, [] => (acc, s)
  | s, acc, drug :: rest =>
    if (alternativesGetS s drug).isSome then
      suggest_alternatives_loopS s
        (dictInsert acc drug ((alternativesGetS s drug).getD "No alternative found")) rest
    else
      suggest_alternatives_loopS s acc rest

/-- State-passing `suggest_alternatives`. -/
def suggest_alternativesS (s : ServiceState) (drugs : List String) :
    List (String × String) × ServiceState :=
  suggest_alternatives_loopS s [] drugs

/-- State-passing `analyze_prescription`: the state is threaded through the
four steps in program order. -/
def analyze_prescriptionS (s : ServiceState) (entities : List Entity) (age : Int) :
    AnalysisResult × ServiceState :=
  let step1 := extract_drugsS s entities
  let step2 := check_interactionsS step1.2 step1.1
  let step3 := recommend_dosageS step2.2 step1.1 age
  let step4 := suggest_alternativesS step3.2 step1.1
  ({ extracted_drugs := step1.1
     interactions := step2.1
     dosage_info := step3.1
     alternatives := step4.1 }, step4.2)

/-! ### Lemmas about the dict model -/

@[simp] theorem dictGet_nil (k : String) : dictGet [] k = none := rfl

theorem dictGet_cons (p : String × String) (m : List (String × String)) (k : String) :
    dictGet (p :: m) k = if p.1 = k then some p.2 else dictGet m k := by
  by_cases h : p.1 = k
  · simp [dictGet, List.find?_cons_of_pos, h]
  · simp [dictGet, List.find?_cons_of_neg, h]

theorem dictGet_mapUpdate_ne {k k' : String} (v : String)
    (m : List (String × String)) (h : k' ≠ k) :
    dictGet (m.map (fun p => if p.1 == k then (k, v) else p)) k' = dictGet m k' := by
  induction m with
  | nil => rfl
  | cons q m ih =>
    have hne : ¬ (k = k') := fun hkk => h hkk.symm
    by_cases hq : q.1 = k
    · have hfq : (if (q.1 == k) = true then (k, v) else q) = (k, v) := by simp [hq]
      rw [List.map_cons, hfq, dictGet_cons, dictGet_cons,
        if_neg hne, if_neg (show ¬ q.1 = k' from hq ▸ hne)]
      exact ih
    · have hfq : (if (q.1 == k) = true then (k, v) else q) = q := by simp [hq]
      rw [List.map_cons, hfq, dictGet_cons, dictGet_cons, ih]

theorem dictGet_mapUpdate_self {k : String} (v : String)
    (m : List (String × String)) (h : m.any (fun p => p.1 == k) = true) :
    dictGet (m.map (fun p => if p.1 == k then (k, v) else p)) k = some v := by
  induction m with
  | nil => simp at h
  | cons q m ih =>
    by_cases hq : q.1 = k
    · have hfq : (if (q.1 == k) = true then (k, v) else q) = (k, v) := by simp [hq]
      rw [List.map_cons, hfq, dictGet_cons, if_pos rfl]
    · have h' : m.any (fun p => p.1 == k) = true := by
        simpa [hq] using h
      have hfq : (if (q.1 == k) = true then (k, v) else q) = q := by simp [hq]
      rw [List.map_cons, hfq, dictGet_cons, if_neg hq, ih h']

theorem dictGet_not_found {k : String} (m : List (String × String))
    (h : m.any (fun p => p.1 == k) = false) :
    dictGet m k = none := by
  have : m.find? (fun p => p.1 == k) = none := by
    rw [List.find?_eq_none]
    intro p hp
    intro hpk
    have : m.any (fun p => p.1 == k) = true := List.any_eq_true.2 ⟨p, hp, hpk⟩
    rw [h] at this
    exact Bool.false_ne_true this
  simp [dictGet, this]

theorem dictGet_dictInsert (m : List (String × String)) (k v k' : String) :
    dictGet (dictInsert m k v) k' = if k' = k then some v else dictGet m k' := by
  by_cases hany : m.any (fun p => p.1 == k) = true
  · rw [dictInsert, if_pos hany]
    by_cases hk : k' = k
    · subst hk
      rw [if_pos rfl, dictGet_mapUpdate_self v m hany]
    · rw [if_neg hk, dictGet_mapUpdate_ne v m hk]
  · rw [dictInsert, if_neg hany]
    rw [dictGet, List.find?_append]
    by_cases hk : k' = k
    · subst hk
      have hnone := dictGet_not_found m (Bool.eq_false_iff.2 hany)
      rw [dictGet] at hnone
      rcases Option.map_eq_none'.1 hnone with hfind
      simp [hfind]
    · have hne : ¬ (k = k') := fun hkk => hk hkk.symm
      have hb : (k == k') = false := by simpa using hne
      simp [dictGet, hb, hk]

theorem dictKeys_dictInsert (m : List (String × String)) (k v : String) :
    dictKeys (dictInsert m k v) =
      if m.any (fun p => p.1 == k) = true then dictKeys m else dictKeys m ++ [k] := by
  unfold dictInsert dictKeys
  split
  · rw [List.map_map]
    apply List.map_congr_left
    intro p _
    by_cases hp : p.1 = k <;> simp [Function.comp, hp]
  · simp

theorem nodup_dictKeys_dictInsert {m : List (String × String)} (k v : String)
    (h : (dictKeys m).Nodup) : (dictKeys (dictInsert m k v)).Nodup := by
  rw [dictKeys_dictInsert]
  split
  · exact h
  · next hany =>
    have hk : k ∉ dictKeys m := by
      intro hmem
      apply hany
      rcases List.mem_map.1 hmem with ⟨p, hp, hpk⟩
      exact List.any_eq_true.2 ⟨p, hp, by simp [hpk]⟩
    simp [List.nodup_append, h, List.disjoint_singleton, hk]

theorem mem_dictInsert {p : String × String} {m : List (String × String)}
    {k v : String} (h : p ∈ dictInsert m k v) : p ∈ m ∨ p = (k, v) := by
  unfold dictInsert at h
  split at h
  · rcases List.mem_map.1 h with ⟨q, hq, hfq⟩
    by_cases hqk : q.1 = k
    · right
      rw [← hfq]
      simp [hqk]
    · left
      rw [← hfq]
      simp [hqk]
      exact hq
  · rcases List.mem_append.1 h with h | h
    · left; exact h
    · right; simpa using h

/-! ### The dosage loop -/

theorem recommend_dosage_loop_get (age : Int) (d : String) :
    ∀ (rest : List String) (acc : List (String × String)),
      dictGet (recommend_dosage_loop age acc rest) d =
        if d ∈ rest ∧ (dbGet d).isSome = true then
          (dbGet d).map (fun info => dosageValue info age)
        else dictGet acc d := by
  intro rest
  induction rest with
  | nil => intro acc; simp [recommend_dosage_loop]
  | cons drug rest ih =>
    intro acc
    rw [recommend_dosage_loop]
    cases hdb : dbGet drug with
    | none =>
      rw [ih acc]
      by_cases hd : d = drug
      · subst hd
        simp [hdb]
      · simp [List.mem_cons, hd]
    | some info =>
      rw [ih _, dictGet_dictInsert]
      by_cases hd : d = drug
      · subst hd
        simp [hdb, dosageValue]
      · simp [List.mem_cons, hd]

theorem nodup_dictKeys_recommend_dosage_loop (age : Int) :
    ∀ (rest : List String) (acc : List (String × String)),
      (dictKeys acc).Nodup → (dictKeys (recommend_dosage_loop age acc rest)).Nodup := by
  intro rest
  induction rest with
  | nil => intro acc h; exact h
  | cons drug rest ih =>
    intro acc h
    rw [recommend_dosage_loop]
    cases hdb : dbGet drug with
    | none => exact ih acc h
    | some info => exact ih _ (nodup_dictKeys_dictInsert _ _ h)

/-! ### The alternatives loop -/

theorem suggest_alternatives_loop_get (d : String) :
    ∀ (rest : List String) (acc : List (String × String)),
      dictGet (suggest_alternatives_loop acc rest) d =
        if d ∈ rest ∧ (alternativesGet d).isSome = true then alternativesGet d
        else dictGet acc d := by
  intro rest
  induction rest with
  | nil => intro acc; simp [suggest_alternatives_loop]
  | cons drug rest ih =>
    intro acc
    rw [suggest_alternatives_loop]
    by_cases halt : (alternativesGet drug).isSome = true
    · rw [if_pos halt, ih, dictGet_dictInsert]
      by_cases hd : d = drug
      · subst hd
        cases halts : alternativesGet d with
        | none => rw [halts] at halt; simp at halt
        | some a => simp [halt, halts]
      · simp [List.mem_cons, hd]
    · rw [if_neg halt, ih]
      have halt' : (alternativesGet drug).isSome = false := by simpa using halt
      by_cases hd : d = drug
      · subst hd
        simp [halt']
      · simp [List.mem_cons, hd]

theorem nodup_dictKeys_suggest_alternatives_loop :
    ∀ (rest : List String) (acc : List (String × String)),
      (dictKeys acc).Nodup → (dictKeys (suggest_alternatives_loop acc rest)).Nodup := by
  intro rest
  induction rest with
  | nil => intro acc h; exact h
  | cons drug rest ih =>
    intro acc h
    rw [suggest_alternatives_loop]
    split
    · exact ih _ (nodup_dictKeys_dictInsert _ _ h)
    · exact ih acc h

theorem mem_suggest_alternatives_loop :
    ∀ {rest : List String} {acc : List (String × String)} {p : String × String},
      p ∈ suggest_alternatives_loop acc rest →
      p ∈ acc ∨ alternativesGet p.1 = some p.2 := by
  intro rest
  induction rest with
  | nil => intro acc p h; exact Or.inl h
  | cons drug rest ih =>
    intro acc p h
    rw [suggest_alternatives_loop] at h
    split at h
    · next halt =>
      rcases ih h with hmem | hget
      · rcases mem_dictInsert hmem with hmem | hp
        · exact Or.inl hmem
        · right
          cases halts : alternativesGet drug with
          | none => rw [halts] at halt; simp at halt
          | some a =>
            rw [hp]
            simp [halts]
      · exact Or.inr hget
    · rcases ih h with hmem | hget
      · exact Or.inl hmem
      · exact Or.inr hget

/-- Lookup characterization of `recommend_dosage`. -/
theorem recommend_dosage_get (drugs : List String) (age : Int) (d : String) :
    dictGet (recommend_dosage drugs age) d =
      if d ∈ drugs then
        (dbGet d).map (fun info =>
          if (info.min_age : Int) ≤ age then info.dosage
          else "Not recommended under age " ++ toString info.min_age)
      else none := by
  rw [recommend_dosage, recommend_dosage_loop_get]
  by_cases hd : d ∈ drugs
  · cases hdb : dbGet d with
    | none => simp [hd, hdb]
    | some info => simp [hd, hdb, dosageValue]
  · simp [hd]

/-- Lookup characterization of `suggest_alternatives`. -/
theorem suggest_alternatives_get (drugs : List String) (d : String) :
    dictGet (suggest_alternatives drugs) d =
      if d ∈ drugs then alternativesGet d else none := by
  rw [suggest_alternatives, suggest_alternatives_loop_get]
  by_cases hd : d ∈ drugs
  · cases halts : alternativesGet d with
    | none => simp [hd, halts]
    | some a => simp [hd, halts]
  · simp [hd]

/-- Membership characterization of `extract_drugs`. -/
theorem mem_extract_drugs (entities : List Entity) (w : String) :
    w ∈ extract_drugs entities ↔
      ∃ e, e ∈ entities ∧ e.entity_group = "MISC" ∧ strLower e.word = w := by
  simp [extract_drugs, List.mem_dedup, List.mem_map, List.mem_filter, and_assoc]

/-- Membership characterization of the inner interaction loop. -/
theorem mem_check_interactions_inner (drug : String) (rest : List String) (s : String) :
    s ∈ check_interactions_inner drug rest ↔
      ∃ o, o ∈ rest ∧ o ∈ interactsWith drug ∧ s = interactionLine drug o := by
  induction rest with
  | nil => simp [check_interactions_inner]
  | cons other rest ih =>
    rw [check_interactions_inner]
    by_cases h : other ∈ interactsWith drug
    · rw [if_pos h]
      simp only [List.mem_cons, ih]
      constructor
      · rintro (hs | ⟨o, ho, hint, hs⟩)
        · exact ⟨other, Or.inl rfl, h, hs⟩
        · exact ⟨o, Or.inr ho, hint, hs⟩
      · rintro ⟨o, (rfl | ho), hint, hs⟩
        · exact Or.inl hs
        · exact Or.inr ⟨o, ho, hint, hs⟩
    · rw [if_neg h, ih]
      constructor
      · rintro ⟨o, ho, hint, hs⟩
        exact ⟨o, List.mem_cons_of_mem _ ho, hint, hs⟩
      · rintro ⟨o, ho, hint, hs⟩
        rcases List.mem_cons.1 ho with rfl | ho'
        · exact absurd hint h
        · exact ⟨o, ho', hint, hs⟩

/-- If two distinct drugs of the list each list the other in its
`interacts_with` record, `check_interactions` reports something. -/
theorem check_interactions_ne_nil (drugs : List String) (a b : String)
    (hne : a ≠ b) (ha : a ∈ drugs) (hb : b ∈ drugs)
    (hab : b ∈ interactsWith a) (hba : a ∈ interactsWith b) :
    check_interactions drugs ≠ [] := by
  induction drugs with
  | nil => exact absurd ha (List.not_mem_nil a)
  | cons d rest ih =>
    rw [check_interactions]
    intro hcontra
    rcases List.append_eq_nil.1 hcontra with ⟨hinner, houter⟩
    rcases List.mem_cons.1 ha with rfl | ha'
    · have hbrest : b ∈ rest := by
        rcases List.mem_cons.1 hb with rfl | hb'
        · exact absurd rfl hne
        · exact hb'
      have : interactionLine a b ∈ check_interactions_inner a rest :=
        (mem_check_interactions_inner a rest _).2 ⟨b, hbrest, hab, rfl⟩
      rw [hinner] at this
      exact List.not_mem_nil _ this
    · rcases List.mem_cons.1 hb with rfl | hb'
      · have : interactionLine b a ∈ check_interactions_inner b rest :=
          (mem_check_interactions_inner b rest _).2 ⟨a, ha', hba, rfl⟩
        rw [hinner] at this
        exact List.not_mem_nil _ this
      · exact ih ha' hb' houter

/-- Closed form of the two-entry `ALTERNATIVES` lookup. -/
theorem alternativesGet_eq (k : String) :
    alternativesGet k =
      if "ibuprofen" = k then some "paracetamol"
      else if "aspirin" = k then some "paracetamol" else none := by
  show dictGet ALTERNATIVES k = _
  rw [ALTERNATIVES, dictGet_cons, dictGet_cons]
  rfl

example : recommend_dosage ["paracetamol"] 0 = [("paracetamol", "Not recommended under age 1")] := by decide
example : check_interactions ["ibuprofen", "aspirin"] = ["ibuprofen interacts with aspirin"] := by decide
example : check_interactions ["aspirin", "ibuprofen"] = ["aspirin interacts with ibuprofen"] := by decide
example : extract_drugs [⟨"Paracetamol", "MISC"⟩, ⟨"daily", "O"⟩] = ["paracetamol"] := by decide
example : suggest_alternatives ["ibuprofen", "paracetamol"] = [("ibuprofen", "paracetamol")] := by decide

/-- The inner loop emits exactly the filtered, formatted pairs with the
current drug as first component. -/
theorem check_interactions_inner_eq (drug : String) (rest : List String) :
    check_interactions_inner drug rest =
      ((rest.map (fun o => (drug, o))).filter
        (fun p => decide (p.2 ∈ interactsWith p.1))).map
        (fun p => p.1 ++ " interacts with " ++ p.2) := by
  induction rest with
  | nil => rfl
  | cons other rest ih =>
    rw [check_interactions_inner]
    by_cases h : other ∈ interactsWith drug
    · simp [h, ih, interactionLine]
    · simp [h, ih]

/-- Theorem: `check_interactions` is the filtered, formatted pair enumeration. -/
theorem check_interactions_eq (drugs : List String) :
    check_interactions drugs =
      ((pairsList drugs).filter (fun p => decide (p.2 ∈ interactsWith p.1))).map
        (fun p => p.1 ++ " interacts with " ++ p.2) := by
  induction drugs with
  | nil => rfl
  | cons drug rest ih =>
    rw [check_interactions, pairsList, List.filter_append, List.map_append, ih,
      check_interactions_inner_eq]

/-- Theorem: `pairsList` enumerates exactly the position pairs `i < j`. -/
theorem mem_pairsList (drugs : List String) (p : String × String) :
    p ∈ pairsList drugs ↔
      ∃ i j : Nat, i < j ∧ j < drugs.length ∧
        drugs.getD i "" = p.1 ∧ drugs.getD j "" = p.2 := by
  induction drugs with
  | nil => simp [pairsList]
  | cons d rest ih =>
    rw [pairsList, List.mem_append]
    constructor
    · rintro (hmap | hrest)
      · rcases List.mem_map.1 hmap with ⟨o, ho, rfl⟩
        rcases List.mem_iff_getElem.1 ho with ⟨j', hj', hoj⟩
        refine ⟨0, j' + 1, Nat.succ_pos _, by simpa using hj', rfl, ?_⟩
        rw [List.getD_cons_succ, List.getD_eq_getElem rest "" hj', hoj]
      · rcases ih.1 hrest with ⟨i, j, hij, hj, hi, hjval⟩
        exact ⟨i + 1, j + 1, Nat.succ_lt_succ hij, Nat.succ_lt_succ hj,
          by simpa using hi, by simpa using hjval⟩
    · rintro ⟨i, j, hij, hj, hi, hjval⟩
      cases j with
      | zero => omega
      | succ j' =>
        have hj' : j' < rest.length := by simpa using hj
        cases i with
        | zero =>
          left
          have h2 : rest.getD j' "" = p.2 := by simpa using hjval
          have h1 : d = p.1 := by simpa using hi
          refine List.mem_map.2 ⟨p.2, ?_, ?_⟩
          · rw [← h2, List.getD_eq_getElem rest "" hj']
            exact List.getElem_mem hj'
          · rw [h1]
        | succ i' =>
          right
          exact ih.2 ⟨i', j', by omega, hj', by simpa using hi, by simpa using hjval⟩

/-! ### Claim theorems -/

/-- C2: `check_interactions` emits the string `"<first> interacts with
<second>"` exactly for the ordered position pairs `i < j` whose `j`-th drug
appears in the `i`-th drug's `interacts_with` list, in pair-enumeration
order; nothing else is emitted and only the `i`-to-`j` direction is
flagged. -/
theorem check_interactions_spec (drugs : List String) :
    (check_interactions drugs =
      ((pairsList drugs).filter (fun p => decide (p.2 ∈ interactsWith p.1))).map
        (fun p => p.1 ++ " interacts with " ++ p.2))
    ∧ ∀ p : String × String, p ∈ pairsList drugs ↔
        ∃ i j : Nat, i < j ∧ j < drugs.length ∧
          drugs.getD i "" = p.1 ∧ drugs.getD j "" = p.2 :=
  ⟨check_interactions_eq drugs, fun p => mem_pairsList drugs p⟩

/-- C1: for every list of drug names and every integer age, `recommend_dosage`
returns a mapping whose keys are exactly the input drugs present in
`DRUG_DATABASE` (each at most once); for each such drug the value is the
table dosage string when `age >= min_age` and
`"Not recommended under age <min_age>"` when `age < min_age`; drugs absent
from the table get no entry (the lookup is total, so no error is raised). -/
theorem recommend_dosage_spec (drugs : List String) (age : Int) (d : String) :
    (dictGet (recommend_dosage drugs age) d =
      if d ∈ drugs then
        (dbGet d).map (fun info =>
          if (info.min_age : Int) ≤ age then info.dosage
          else "Not recommended under age " ++ toString info.min_age)
      else none)
    ∧ (dictKeys (recommend_dosage drugs age)).Nodup :=
  ⟨recommend_dosage_get drugs age d,
   nodup_dictKeys_recommend_dosage_loop age drugs [] (by simp [dictKeys])⟩

/-- C4: the three concrete dosage recommendations — `paracetamol` at age 0 is
restricted (`min_age` 1), `ibuprofen` at 12 gives the table dosage `200mg`,
and `ibuprofen` at 11 is restricted (`min_age` 12). -/
theorem recommend_dosage_examples :
    recommend_dosage ["paracetamol"] 0 = [("paracetamol", "Not recommended under age 1")]
    ∧ recommend_dosage ["ibuprofen"] 12 = [("ibuprofen", "200mg")]
    ∧ recommend_dosage ["ibuprofen"] 11 = [("ibuprofen", "Not recommended under age 12")] := by
  refine ⟨by decide, by decide, by decide⟩

/-- C5: `suggest_alternatives` maps exactly the input drugs present in
`ALTERNATIVES` to their listed alternative (each key at most once), omits
any other drug entirely, and on `["ibuprofen", "paracetamol"]` returns the
single-entry mapping `ibuprofen ↦ paracetamol` with no entry for
`paracetamol`. -/
theorem suggest_alternatives_spec (drugs : List String) (d : String) :
    (dictGet (suggest_alternatives drugs) d =
      if d ∈ drugs then alternativesGet d else none)
    ∧ (dictKeys (suggest_alternatives drugs)).Nodup
    ∧ suggest_alternatives ["ibuprofen", "paracetamol"] = [("ibuprofen", "paracetamol")] :=
  ⟨suggest_alternatives_get drugs d,
   nodup_dictKeys_suggest_alternatives_loop drugs [] (by simp [dictKeys]),
   by decide⟩

/-- C10: the default `"No alternative found"` in `suggest_alternatives` is
dead: every entry of the returned mapping is a genuine `ALTERNATIVES`
binding, so the default string never appears as a value. -/
theorem suggest_alternatives_no_default (drugs : List String) (p : String × String)
    (h : p ∈ suggest_alternatives drugs) :
    alternativesGet p.1 = some p.2 ∧ p.2 ≠ "No alternative found" := by
  have halt : alternativesGet p.1 = some p.2 := by
    rcases mem_suggest_alternatives_loop h with hmem | hget
    · simp at hmem
    · exact hget
  refine ⟨halt, ?_⟩
  rw [alternativesGet_eq p.1] at halt
  split_ifs at halt
  · rw [show p.2 = "paracetamol" from (Option.some.inj halt).symm]
    decide
  · rw [show p.2 = "paracetamol" from (Option.some.inj halt).symm]
    decide

/-- C3 counterexample: `aspirin` is listed in ibuprofen's `interacts_with`,
yet for the enumeration order that presents the pair as
`["aspirin", "ibuprofen"]` the output does not contain
`"ibuprofen interacts with aspirin"` (the loop only emits the reversed
string `"aspirin interacts with ibuprofen"`). -/
theorem check_interactions_reverse_order_cex :
    "aspirin" ∈ interactsWith "ibuprofen"
    ∧ "ibuprofen interacts with aspirin" ∉ check_interactions ["aspirin", "ibuprofen"]
    ∧ check_interactions ["aspirin", "ibuprofen"] = ["aspirin interacts with ibuprofen"] := by
  refine ⟨by decide, by decide, by decide⟩

/-- C3 amended: for all drug pairs with `d2` in `d1`'s `interacts_with`
list, `check_interactions` on the two-element collection in the enumeration
order that presents `d1` first yields a result containing
`"d1 interacts with d2"` (the reverse enumeration order does not emit this
string, only its reversal when the table lists that direction). -/
theorem check_interactions_forward_order (d1 d2 : String)
    (h : d2 ∈ interactsWith d1) :
    (d1 ++ " interacts with " ++ d2) ∈ check_interactions [d1, d2] := by
  simp [check_interactions, check_interactions_inner, h, interactionLine]

/-- Witness for the amended C3 at the pair `(ibuprofen, aspirin)`. -/
theorem check_interactions_forward_order_witness :
    "aspirin" ∈ interactsWith "ibuprofen"
    ∧ ("ibuprofen" ++ " interacts with " ++ "aspirin") ∈
        check_interactions ["ibuprofen", "aspirin"] :=
  ⟨by decide, check_interactions_forward_order "ibuprofen" "aspirin" (by decide)⟩

/-- C6 counterexample: when the extractor labels `Paracetamol` as `MISC`,
the drug is extracted but the alternatives mapping of the analysis result
has no entry for it (and in particular no `"none found"` value). -/
theorem analyze_alternatives_missing_entry_cex :
    "paracetamol" ∈ (analyze_prescription [⟨"Paracetamol", "MISC"⟩] 30).extracted_drugs
    ∧ dictGet (analyze_prescription [⟨"Paracetamol", "MISC"⟩] 30).alternatives
        "paracetamol" = none := by
  refine ⟨by decide, by decide⟩

/-- C6 amended: the alternatives field of the analysis result has an entry
exactly for the extracted drugs present in `ALTERNATIVES` (mapped to the
listed alternative); extracted drugs absent from `ALTERNATIVES` have no
entry at all. -/
theorem analyze_alternatives_entries (entities : List Entity) (age : Int) (d : String) :
    dictGet (analyze_prescription entities age).alternatives d =
      if d ∈ (analyze_prescription entities age).extracted_drugs then alternativesGet d
      else none := by
  show dictGet (suggest_alternatives (extract_drugs entities)) d =
    if d ∈ extract_drugs entities then alternativesGet d else none
  exact suggest_alternatives_get _ d

/-- C7: `extract_drugs` returns exactly the deduplicated set of lowercased
surface texts of the spans labeled `MISC`: each qualifying lowercased word
appears once (no duplicates), non-`MISC` spans contribute nothing, and with
no qualifying span the result is empty. -/
theorem extract_drugs_spec (entities : List Entity) :
    (extract_drugs entities).Nodup
    ∧ ∀ w : String, w ∈ extract_drugs entities ↔
        ∃ e, e ∈ entities ∧ e.entity_group = "MISC" ∧ strLower e.word = w :=
  ⟨List.nodup_dedup _, fun w => mem_extract_drugs entities w⟩

/-- Witness for C10 at the concrete input `["ibuprofen"]`. -/
theorem suggest_alternatives_no_default_witness :
    alternativesGet ("ibuprofen", "paracetamol").1 = some ("ibuprofen", "paracetamol").2
    ∧ ("ibuprofen", "paracetamol").2 ≠ "No alternative found" :=
  suggest_alternatives_no_default ["ibuprofen"] ("ibuprofen", "paracetamol") (by decide)

/-- C8: end-to-end, when the Entity Extractor labels both `ibuprofen` and
`aspirin` as `MISC` spans, `analyze` at age 20 extracts both drugs, reports
at least one interaction, gives the table dosages (`200mg`, `100mg`, as
`20 ≥ 12` and `20 ≥ 16`) and maps both drugs to the alternative
`paracetamol`. -/
theorem analyze_end_to_end (entities : List Entity)
    (h1 : ∃ e, e ∈ entities ∧ e.entity_group = "MISC" ∧ strLower e.word = "ibuprofen")
    (h2 : ∃ e, e ∈ entities ∧ e.entity_group = "MISC" ∧ strLower e.word = "aspirin") :
    "ibuprofen" ∈ (analyze_prescription entities 20).extracted_drugs
    ∧ "aspirin" ∈ (analyze_prescription entities 20).extracted_drugs
    ∧ (analyze_prescription entities 20).interactions ≠ []
    ∧ dictGet (analyze_prescription entities 20).dosage_info "ibuprofen" = some "200mg"
    ∧ dictGet (analyze_prescription entities 20).dosage_info "aspirin" = some "100mg"
    ∧ dictGet (analyze_prescription entities 20).alternatives "ibuprofen" = some "paracetamol"
    ∧ dictGet (analyze_prescription entities 20).alternatives "aspirin" = some "paracetamol" := by
  have hib : "ibuprofen" ∈ extract_drugs entities := (mem_extract_drugs _ _).2 h1
  have has : "aspirin" ∈ extract_drugs entities := (mem_extract_drugs _ _).2 h2
  refine ⟨hib, has, ?_, ?_, ?_, ?_, ?_⟩
  · show check_interactions (extract_drugs entities) ≠ []
    exact check_interactions_ne_nil _ "ibuprofen" "aspirin" (by decide) hib has
      (by decide) (by decide)
  · show dictGet (recommend_dosage (extract_drugs entities) 20) "ibuprofen" = some "200mg"
    rw [recommend_dosage_get, if_pos hib]
    decide
  · show dictGet (recommend_dosage (extract_drugs entities) 20) "aspirin" = some "100mg"
    rw [recommend_dosage_get, if_pos has]
    decide
  · show dictGet (suggest_alternatives (extract_drugs entities)) "ibuprofen" = some "paracetamol"
    rw [suggest_alternatives_get, if_pos hib]
    decide
  · show dictGet (suggest_alternatives (extract_drugs entities)) "aspirin" = some "paracetamol"
    rw [suggest_alternatives_get, if_pos has]
    decide

/-- Witness for C8: the extractor output
`[(ibuprofen, MISC), (aspirin, MISC)]` at age 20. -/
theorem analyze_end_to_end_witness :
    "ibuprofen" ∈ (analyze_prescription [⟨"ibuprofen", "MISC"⟩, ⟨"aspirin", "MISC"⟩] 20).extracted_drugs
    ∧ "aspirin" ∈ (analyze_prescription [⟨"ibuprofen", "MISC"⟩, ⟨"aspirin", "MISC"⟩] 20).extracted_drugs
    ∧ (analyze_prescription [⟨"ibuprofen", "MISC"⟩, ⟨"aspirin", "MISC"⟩] 20).interactions ≠ []
    ∧ dictGet (analyze_prescription [⟨"ibuprofen", "MISC"⟩, ⟨"aspirin", "MISC"⟩] 20).dosage_info
        "ibuprofen" = some "200mg"
    ∧ dictGet (analyze_prescription [⟨"ibuprofen", "MISC"⟩, ⟨"aspirin", "MISC"⟩] 20).dosage_info
        "aspirin" = some "100mg"
    ∧ dictGet (analyze_prescription [⟨"ibuprofen", "MISC"⟩, ⟨"aspirin", "MISC"⟩] 20).alternatives
        "ibuprofen" = some "paracetamol"
    ∧ dictGet (analyze_prescription [⟨"ibuprofen", "MISC"⟩, ⟨"aspirin", "MISC"⟩] 20).alternatives
        "aspirin" = some "paracetamol" :=
  analyze_end_to_end [⟨"ibuprofen", "MISC"⟩, ⟨"aspirin", "MISC"⟩] (by decide) (by decide)

/-! ### State preservation of the state-passing operations -/

theorem check_interactions_innerS_snd (drug : String) (s : ServiceState) :
    ∀ rest : List String, (check_interactions_innerS drug s rest).2 = s := by
  intro rest
  induction rest with
  | nil => rfl
  | cons other rest ih =>
    rw [check_interactions_innerS]
    by_cases h : other ∈ interactsWithS s drug
    · simpa [if_pos h] using ih
    · simpa [if_neg h] using ih

theorem check_interactionsS_snd :
    ∀ (drugs : List String) (s : ServiceState), (check_interactionsS s drugs).2 = s := by
  intro drugs
  induction drugs with
  | nil => intro s; rfl
  | cons drug rest ih =>
    intro s
    show (check_interactionsS (check_interactions_innerS drug s rest).2 rest).2 = s
    rw [ih, check_interactions_innerS_snd]

theorem recommend_dosage_loopS_snd (age : Int) :
    ∀ (rest : List String) (s : ServiceState) (acc : List (String × String)),
      (recommend_dosage_loopS age s acc rest).2 = s := by
  intro rest
  induction rest with
  | nil => intro s acc; rfl
  | cons drug rest ih =>
    intro s acc
    rw [recommend_dosage_loopS]
    cases dbGetS s drug with
    | some info => exact ih s _
    | none => exact ih s acc

theorem suggest_alternatives_loopS_snd :
    ∀ (rest : List String) (s : ServiceState) (acc : List (String × String)),
      (suggest_alternatives_loopS s acc rest).2 = s := by
  intro rest
  induction rest with
  | nil => intro s acc; rfl
  | cons drug rest ih =>
    intro s acc
    rw [suggest_alternatives_loopS]
    split
    · exact ih s _
    · exact ih s acc

theorem recommend_dosageS_snd (s : ServiceState) (drugs : List String) (age : Int) :
    (recommend_dosageS s drugs age).2 = s :=
  recommend_dosage_loopS_snd age drugs s []

theorem suggest_alternativesS_snd (s : ServiceState) (drugs : List String) :
    (suggest_alternativesS s drugs).2 = s :=
  suggest_alternatives_loopS_snd drugs s []

theorem analyze_prescriptionS_snd (s : ServiceState) (entities : List Entity) (age : Int) :
    (analyze_prescriptionS s entities age).2 = s := by
  show (suggest_alternativesS (recommend_dosageS (check_interactionsS s _).2 _ age).2 _).2 = s
  rw [suggest_alternativesS_snd, recommend_dosageS_snd, check_interactionsS_snd]

/-! ### The state-passing operations compute the pure results -/

theorem interactsWithS_initState (drug : String) :
    interactsWithS initState drug = interactsWith drug := rfl

theorem check_interactions_innerS_fst (drug : String) :
    ∀ rest : List String,
      (check_interactions_innerS drug initState rest).1 = check_interactions_inner drug rest := by
  intro rest
  induction rest with
  | nil => rfl
  | cons other rest ih =>
    rw [check_interactions_innerS, check_interactions_inner]
    by_cases h : other ∈ interactsWith drug
    · have hS : other ∈ interactsWithS initState drug := by
        rw [interactsWithS_initState]; exact h
      rw [if_pos h, if_pos hS]
      show interactionLine drug other :: (check_interactions_innerS drug initState rest).1 = _
      rw [ih]
    · have hS : other ∉ interactsWithS initState drug := by
        rw [interactsWithS_initState]; exact h
      rw [if_neg h, if_neg hS]
      exact ih

theorem check_interactionsS_fst :
    ∀ drugs : List String,
      (check_interactionsS initState drugs).1 = check_interactions drugs := by
  intro drugs
  induction drugs with
  | nil => rfl
  | cons drug rest ih =>
    rw [check_interactions]
    show (check_interactions_innerS drug initState rest).1 ++
      (check_interactionsS (check_interactions_innerS drug initState rest).2 rest).1 = _
    rw [check_interactions_innerS_snd, check_interactions_innerS_fst, ih]

theorem recommend_dosage_loopS_fst (age : Int) :
    ∀ (rest : List String) (acc : List (String × String)),
      (recommend_dosage_loopS age initState acc rest).1 = recommend_dosage_loop age acc rest := by
  intro rest
  induction rest with
  | nil => intro acc; rfl
  | cons drug rest ih =>
    intro acc
    have heq : dbGetS initState drug = dbGet drug := rfl
    rw [recommend_dosage_loopS, recommend_dosage_loop, heq]
    cases dbGet drug with
    | some info => exact ih _
    | none => exact ih acc

theorem suggest_alternatives_loopS_fst :
    ∀ (rest : List String) (acc : List (String × String)),
      (suggest_alternatives_loopS initState acc rest).1 = suggest_alternatives_loop acc rest := by
  intro rest
  induction rest with
  | nil => intro acc; rfl
  | cons drug rest ih =>
    intro acc
    have heq : alternativesGetS initState drug = alternativesGet drug := rfl
    rw [suggest_alternatives_loopS, suggest_alternatives_loop, heq]
    split
    · exact ih _
    · exact ih acc

theorem recommend_dosageS_fst (drugs : List String) (age : Int) :
    (recommend_dosageS initState drugs age).1 = recommend_dosage drugs age :=
  recommend_dosage_loopS_fst age drugs []

theorem suggest_alternativesS_fst (drugs : List String) :
    (suggest_alternativesS initState drugs).1 = suggest_alternatives drugs :=
  suggest_alternatives_loopS_fst drugs []

theorem analyze_prescriptionS_fst (entities : List Entity) (age : Int) :
    (analyze_prescriptionS initState entities age).1 = analyze_prescription entities age := by
  have hx : extract_drugsS initState entities = (extract_drugs entities, initState) := rfl
  show ({ extracted_drugs := (extract_drugsS initState entities).1
          interactions := (check_interactionsS (extract_drugsS initState entities).2
            (extract_drugsS initState entities).1).1
          dosage_info := (recommend_dosageS (check_interactionsS (extract_drugsS initState entities).2
            (extract_drugsS initState entities).1).2 (extract_drugsS initState entities).1 age).1
          alternatives := (suggest_alternativesS (recommend_dosageS
            (check_interactionsS (extract_drugsS initState entities).2
              (extract_drugsS initState entities).1).2
            (extract_drugsS initState entities).1 age).2
            (extract_drugsS initState entities).1).1 } : AnalysisResult) =
    analyze_prescription entities age
  rw [hx]
  show ({ extracted_drugs := extract_drugs entities
          interactions := (check_interactionsS initState (extract_drugs entities)).1
          dosage_info := (recommend_dosageS (check_interactionsS initState
            (extract_drugs entities)).2 (extract_drugs entities) age).1
          alternatives := (suggest_alternativesS (recommend_dosageS
            (check_interactionsS initState (extract_drugs entities)).2
            (extract_drugs entities) age).2 (extract_drugs entities)).1 } : AnalysisResult) =
    analyze_prescription entities age
  rw [check_interactionsS_snd, check_interactionsS_fst, recommend_dosageS_snd,
    recommend_dosageS_fst, suggest_alternativesS_fst]
  rfl

/-- C9: no operation mutates the tables — in the state-passing embedding
every operation returns its input state unchanged for every state and every
input, and on the startup state its result is the pure function of the
startup tables. -/
theorem tables_read_only (s : ServiceState) (entities : List Entity)
    (drugs : List String) (age : Int) :
    (extract_drugsS s entities).2 = s
    ∧ (check_interactionsS s drugs).2 = s
    ∧ (recommend_dosageS s drugs age).2 = s
    ∧ (suggest_alternativesS s drugs).2 = s
    ∧ (analyze_prescriptionS s entities age).2 = s
    ∧ (analyze_prescriptionS initState entities age).1 = analyze_prescription entities age :=
  ⟨rfl, check_interactionsS_snd drugs s, recommend_dosageS_snd s drugs age,
   suggest_alternativesS_snd s drugs, analyze_prescriptionS_snd s entities age,
   analyze_prescriptionS_fst entities age⟩

end Medical
